import Mathlib

/-!
Verification of the RAGFactChecker parsing/recombination core.

The Python sources are shallowly embedded below.  String primitives
(`str.replace`, `str.split`, `str.strip`) are modelled over `List Char`
with explicit fuel so that every definition reduces in the kernel.
Python's `eval` on model output is modelled by a strict literal parser
over the accepted input shapes (nested bracket lists of quoted strings
for triplet output, `index:boolean` entries for verdict output, JSON for
the hallucination generator); arbitrary expression evaluation is not
modelled.
-/

/-- Python-style whitespace test used by `strip` and token parsing. -/
def isPyWs (c : Char) : Bool :=
  c = ' ' || c = '\t' || c = '\n' || c = '\r'

/-- Drop leading whitespace characters. -/
def skipWs : List Char → List Char
  | [] => []
  | c :: cs => if isPyWs c then skipWs cs else c :: cs

/-- Model of Python `str.strip()`: drop whitespace from both ends. -/
def stripChars (cs : List Char) : List Char :=
  ((cs.dropWhile (fun c => isPyWs c)).reverse.dropWhile (fun c => isPyWs c)).reverse

/-- Model of Python `str.strip()` on `String`. -/
def pyStrip (s : String) : String :=
  String.mk (stripChars s.data)

/-- Fuel-based model of Python `str.replace(pat, repl)`: replace every
non-overlapping occurrence left to right.  Fuel equal to the input length
suffices since each step consumes at least one character. -/
def replaceListF (pat repl : List Char) : Nat → List Char → List Char
  | 0, cs => cs
  | _ + 1, [] => []
  | n + 1, c :: cs =>
    if !pat.isEmpty && pat.isPrefixOf (c :: cs) then
      repl ++ replaceListF pat repl n ((c :: cs).drop pat.length)
    else
      c :: replaceListF pat repl n cs

/-- Model of Python `str.replace` on `String`. -/
def pyReplace (s pat repl : String) : String :=
  String.mk (replaceListF pat.data repl.data s.data.length s.data)

/-- Prepend a character to the first part of a split result. -/
def consHead (c : Char) : List (List Char) → List (List Char)
  | [] => [[c]]
  | p :: ps => (c :: p) :: ps

/-- Fuel-based model of Python `str.split(sep)` for a non-empty separator:
split at every non-overlapping occurrence, left to right. -/
def splitOnLF (pat : List Char) : Nat → List Char → List (List Char)
  | 0, cs => [cs]
  | _ + 1, [] => [[]]
  | n + 1, c :: cs =>
    if !pat.isEmpty && pat.isPrefixOf (c :: cs) then
      [] :: splitOnLF pat n ((c :: cs).drop pat.length)
    else
      consHead c (splitOnLF pat n cs)

/-- Model of Python `str.split(sep)` on `String`. -/
def pySplit (s sep : String) : List String :=
  (splitOnLF sep.data s.data.length s.data).map String.mk

/-- Whether `pat` occurs as a contiguous subsequence of the input. -/
def containsSeq (pat : List Char) : List Char → Bool
  | [] => pat.isEmpty
  | c :: cs => pat.isPrefixOf (c :: cs) || containsSeq pat cs

/-- Python values produced by evaluating triplet-generation output as a
literal: nested bracket lists of quoted strings. -/
inductive PyVal where
  | str (s : String)
  | list (l : List PyVal)

/-- Python `len` on an embedded value: string length or list length. -/
def pyLen : PyVal → Nat
  | .str s => s.data.length
  | .list l => l.length

/-- Python iteration on an embedded value: a list yields its elements, a
string yields its characters as one-character strings. -/
def pyItems : PyVal → List PyVal
  | .list l => l
  | .str s => s.data.map (fun c => PyVal.str (String.mk [c]))

/-- Body of a quoted string: characters up to the closing quote `q`
(escape sequences are not modelled). -/
def parseStrBody (q : Char) : List Char → Option (List Char × List Char)
  | [] => none
  | c :: cs =>
    if c = q then some ([], cs)
    else
      match parseStrBody q cs with
      | some (sd, r) => some (c :: sd, r)
      | none => none

/-- Fuel-based literal parser for the shapes accepted from the triplet
generator: `mode = false` parses one value (a quoted string or a bracket
list), `mode = true` parses the element listing after an opening bracket
and returns it wrapped as `PyVal.list`.  Trailing commas are accepted, as
in Python. -/
def parseF : Nat → Bool → List Char → Option (PyVal × List Char)
  | 0, _, _ => none
  | n + 1, false, cs =>
    match skipWs cs with
    | [] => none
    | c :: cs1 =>
      if c = '[' then
        match parseF n true cs1 with
        | some (v, r) => some (v, r)
        | none => none
      else if c = '"' ∨ c = '\'' then
        match parseStrBody c cs1 with
        | some (sd, r) => some (.str (String.mk sd), r)
        | none => none
      else none
  | n + 1, true, cs =>
    match skipWs cs with
    | [] => none
    | c :: r0 =>
      if c = ']' then some (.list [], r0)
      else
        match parseF n false (c :: r0) with
        | none => none
        | some (v, r) =>
          match skipWs r with
          | [] => none
          | c2 :: r1 =>
            if c2 = ',' then
              match parseF n true r1 with
              | some (PyVal.list vs, r2) => some (.list (v :: vs), r2)
              | _ => none
            else if c2 = ']' then some (.list [v], r1)
            else none

/-- Model of the `eval` call in `parse_triplet_generation_output`,
restricted to literal nested lists of quoted strings (the accepted input
shape); trailing garbage makes the whole parse fail, as a Python
`SyntaxError` would. -/
def literal_eval (s : String) : Option PyVal :=
  match parseF (s.data.length + 1) false s.data with
  | some (v, r) => if skipWs r = [] then some v else none
  | none => none

/-- Source `LLMMultiShotTripletGenerator.preprocess_output`: strip
whitespace, remove stray braces, collapse doubled closing-bracket
artifacts. -/
def preprocess_output (output : String) : String :=
  pyReplace (pyReplace (pyReplace (pyReplace (pyStrip output) "\x7b" "") "\x7d" "") "]]]" "]]") "]]."
    "]]"

/-- Source `LLMMultiShotTripletGenerator.default_triplet`: a list of three
empty strings. -/
def default_triplet : List PyVal :=
  [PyVal.str "", PyVal.str "", PyVal.str ""]

/-- Python list repetition `l * n`. -/
def listMul (l : List PyVal) (n : Nat) : List PyVal :=
  (List.replicate n l).flatten

/-- Source `LLMMultiShotTripletGenerator.parse_triplet_generation_output`.
The first branch is the `try` block (evaluate, then null out elements
whose `len` is not 3); on failure the source re-evaluates the same input
(idempotent) and falls back to `default_triplet * len(result)`, and if
that also fails to `default_triplet * 1`.  In this embedding the `try`
block fails exactly when `literal_eval` fails: under the literal grammar
every parsed element is a string or a list, so `len` and iteration never
raise. -/
def parse_triplet_generation_output (triplet_generation_output : String) : List PyVal :=
  match literal_eval (preprocess_output triplet_generation_output) with
  | some result =>
    (pyItems result).map fun triplet =>
      if pyLen triplet = 3 then triplet else PyVal.list default_triplet
  | none =>
    match literal_eval (preprocess_output triplet_generation_output) with
    | some result => listMul default_triplet (pyLen result)
    | none => listMul default_triplet 1

/-- Render one string as a double-quoted literal. -/
def renderStringL (s : String) : List Char :=
  '"' :: s.data ++ ['"']

/-- Render the tail of a comma-separated string listing. -/
def renderStringsRest : List String → List Char
  | [] => []
  | s :: ss => ',' :: renderStringL s ++ renderStringsRest ss

/-- Render a comma-separated string listing. -/
def renderStrings : List String → List Char
  | [] => []
  | s :: ss => renderStringL s ++ renderStringsRest ss

/-- Render one triplet as a bracket list of quoted strings. -/
def renderTripletL (t : List String) : List Char :=
  '[' :: renderStrings t ++ [']']

/-- Render the tail of a comma-separated triplet listing. -/
def renderSetBodyRest : List (List String) → List Char
  | [] => []
  | t :: ts => ',' :: renderTripletL t ++ renderSetBodyRest ts

/-- Render a comma-separated triplet listing. -/
def renderSetBody : List (List String) → List Char
  | [] => []
  | t :: ts => renderTripletL t ++ renderSetBodyRest ts

/-- Render a triplet set as its literal list-of-lists text. -/
def renderTripletSet (ts : List (List String)) : String :=
  String.mk ('[' :: renderSetBody ts ++ [']'])

/-- The embedded-value image of a triplet set. -/
def pyOfTripletSet (ts : List (List String)) : List PyVal :=
  ts.map fun t => PyVal.list (t.map PyVal.str)

/-- Scanner tracking the run of consecutive closing brackets: returns the
final run length, or `none` as soon as the input contains a stray brace,
three consecutive closing brackets, or two closing brackets followed by a
period — exactly the patterns `preprocess_output` rewrites. -/
def st : Nat → List Char → Option Nat
  | k, [] => some k
  | k, c :: cs =>
    if c = ']' then
      if 2 ≤ k then none else st (k + 1) cs
    else if c = '\x7b' ∨ c = '\x7d' then none
    else if c = '.' ∧ 2 ≤ k then none
    else st 0 cs

/-- A string safe for the generator round trip: it contains no double
quote and none of the patterns rewritten by `preprocess_output`. -/
def goodString (s : String) : Bool :=
  !s.data.contains '"' && (st 0 s.data).isSome

/-- Recognize the boolean literals `True` / `False` at the head of the
input. -/
def matchBoolLit (cs : List Char) : Option (Bool × List Char) :=
  if ("True".data).isPrefixOf cs then some (true, cs.drop 4)
  else if ("False".data).isPrefixOf cs then some (false, cs.drop 5)
  else none

/-- Decimal value of a digit run. -/
def digitsToNat (ds : List Char) : Nat :=
  ds.foldl (fun n c => n * 10 + (c.toNat - 48)) 0

/-- Model of `eval` applied to one brace-wrapped verdict token: an
all-whitespace token evaluates to the empty dictionary (`some none`), a
token of shape `index:True` or `index:False` (optional spaces, no leading
zeros) evaluates to one entry, and anything else raises (`none`). -/
def evalVerdictEntry (cs : List Char) : Option (Option (Nat × Bool)) :=
  match skipWs cs with
  | [] => some none
  | c :: cs2 =>
    if c.isDigit then
      let ds := (c :: cs2).takeWhile Char.isDigit
      let r := (c :: cs2).dropWhile Char.isDigit
      if 1 < ds.length ∧ ds.headD ' ' = '0' then none
      else
        match skipWs r with
        | ':' :: r2 =>
          match matchBoolLit (skipWs r2) with
          | some (b, r3) => if skipWs r3 = [] then some (some (digitsToNat ds, b)) else none
          | none => none
        | _ => none
    else none

/-- Python `dict` assignment: overwrite in place if the key exists,
otherwise append. -/
def dictUpdate (d : List (Nat × Bool)) (k : Nat) (v : Bool) : List (Nat × Bool) :=
  if d.any (fun p => p.1 == k) then d.map (fun p => if p.1 == k then (k, v) else p)
  else d ++ [(k, v)]

/-- The accumulation loop shared by both verdict parsers: per token,
remove every hyphen, evaluate the brace-wrapped token, update the map on
success and skip the token otherwise. -/
def verdictFold (init : List (Nat × Bool)) (tokens : List String) : List (Nat × Bool) :=
  tokens.foldl
    (fun acc tok =>
      match evalVerdictEntry ((pyReplace tok "-" "").data) with
      | some (some kv) => dictUpdate acc kv.1 kv.2
      | _ => acc)
    init

/-- Token list of `parse_triplet_comparison_output`: replace newlines with
commas, then split on commas. -/
def comparison_tokens (string_output : String) : List String :=
  pySplit (pyReplace string_output "\n" ",") ","

/-- Source `LLMMultiShotFactChecker.parse_triplet_comparison_output`. -/
def parse_triplet_comparison_output (string_output : String) : List (Nat × Bool) :=
  verdictFold [] (comparison_tokens string_output)

/-- The inquiry-mode delimiter literal. -/
def FINAL_ANSWER : String := "[FINAL ANSWER]"

/-- Token list of the inquiry parser applied to the post-delimiter part:
replace newlines with commas, strip the noise substrings `triplet_idx_`
and `triplet_`, then split on commas. -/
def inquiry_verdict_tokens (part : String) : List String :=
  pySplit (pyReplace (pyReplace (pyReplace part "\n" ",") "triplet_idx_" "") "triplet_" "") ","

/-- Verdict parsing of one inquiry-mode part. -/
def processInquiryPart (part : String) : List (Nat × Bool) :=
  verdictFold [] (inquiry_verdict_tokens part)

/-- Source `parse_triplet_comparison_inquiry_output`: the verdict part is
`string_output.split("[FINAL ANSWER]")[-1]`, i.e. the text after the last
occurrence of the delimiter (the whole string when it does not occur). -/
def parse_triplet_comparison_inquiry_output (string_output : String) : List (Nat × Bool) :=
  processInquiryPart ((pySplit string_output FINAL_ANSWER).getLastD "")

/-- Source inquiry parser's logged reasoning part:
`string_output.split("[FINAL ANSWER]")[0]`. -/
def inquiry_reasoning_part (string_output : String) : String :=
  (pySplit string_output FINAL_ANSWER).headD ""

/-- Claim-side verdict parser following the spec's words for the token
normalization: strip only the leading hyphens of each token (the source
instead removes every hyphen).  Used to compare the spec's description of
`parse_triplet_comparison_output` with the source behavior. -/
def parse_comparison_spec_leading_hyphens (string_output : String) : List (Nat × Bool) :=
  (comparison_tokens string_output).foldl
    (fun acc tok =>
      match evalVerdictEntry (tok.data.dropWhile (fun c => c = '-')) with
      | some (some kv) => dictUpdate acc kv.1 kv.2
      | _ => acc)
    []

/-- Join a list of strings with a separator (used to express "everything
after the first occurrence" of the delimiter). -/
def joinSep (sep : String) : List String → String
  | [] => ""
  | [s] => s
  | s :: ss => s ++ sep ++ joinSep sep ss

/-- Claim-side inquiry parser following the spec's words: split on the
first occurrence of the delimiter, discard everything before it, and
parse everything after it as the verdict listing (the source instead
parses only the text after the last occurrence). -/
def parse_inquiry_spec_first_occurrence (string_output : String) : List (Nat × Bool) :=
  processInquiryPart (joinSep FINAL_ANSWER ((pySplit string_output FINAL_ANSWER).tail))

/-- Source dataclass `ExperimentSetupConfig` (data_models.py). -/
structure ExperimentSetupConfig where
  system_retry : Int
  log_prompts : Bool

/-- Source dataclass `AnswerGeneratorConfig` (data_models.py). -/
structure AnswerGeneratorConfig where
  model_name : String
  num_shot : Int

/-- Source dataclass `TripletGeneratorModelParams` (data_models.py). -/
structure TripletGeneratorModelParams where
  openie_affinity_probability_cap : Float

/-- Source dataclass `TripletGeneratorConfig` (data_models.py). -/
structure TripletGeneratorConfig where
  model_name : String
  model_params : TripletGeneratorModelParams
  num_shot : Int

/-- Source dataclass `LLMConfig` (data_models.py). -/
structure LLMConfig where
  generator_model : String
  request_max_try : Int
  temperature : Float
  api_key : Option String

/-- Source dataclass `ModelConfig` (data_models.py, lines 37-41): its only
fields are `answer_generator`, `triplet_generator` and `llm`. -/
structure ModelConfig where
  answer_generator : AnswerGeneratorConfig
  triplet_generator : TripletGeneratorConfig
  llm : LLMConfig

/-- Source dataclass `PathDataConfig` (data_models.py). -/
structure PathDataConfig where
  base : String
  demo : String

/-- Source dataclass `PathConfig` (data_models.py). -/
structure PathConfig where
  data : PathDataConfig
  prompts : String

/-- Source dataclass `Config` (data_models.py). -/
structure Config where
  experiment_setup : ExperimentSetupConfig
  model : ModelConfig
  path : PathConfig
  logger_level : Option String

/-- The value of one `ModelConfig` attribute. -/
inductive ModelConfigAttrValue where
  | answerGenerator (v : AnswerGeneratorConfig)
  | tripletGenerator (v : TripletGeneratorConfig)
  | llmValue (v : LLMConfig)

/-- Python attribute access on a `ModelConfig` dataclass instance:
`none` models the `AttributeError` raised for a name that is not a
declared field. -/
def modelConfigAttr (c : ModelConfig) : String → Option ModelConfigAttrValue
  | "answer_generator" => some (.answerGenerator c.answer_generator)
  | "triplet_generator" => some (.tripletGenerator c.triplet_generator)
  | "llm" => some (.llmValue c.llm)
  | _ => none

/-- Source `FactCheckerOutput` (data_models.py); the verdict map is
modelled as an insertion-ordered association list. -/
structure FactCheckerOutput where
  fact_check_prediction_binary : List (Nat × Bool)

/-- Modelled from the spec: `flatten_triplets` is inherited from the
`FactChecker` base class, which is not among the provided sources; §4.2
says non-split mode "flattens all reference segments into one
TripletSet". -/
def flatten_triplets (reference_triplets : List (List (List String))) : List (List String) :=
  reference_triplets.flatten

/-- OR-insert one verdict entry into a merged map. -/
def orInsert (d : List (Nat × Bool)) (k : Nat) (v : Bool) : List (Nat × Bool) :=
  if d.any (fun p => p.1 == k) then d.map (fun p => if p.1 == k then (k, p.2 || v) else p)
  else d ++ [(k, v)]

/-- OR-merge one segment verdict map into the accumulator. -/
def orMergeTwo (acc m : List (Nat × Bool)) : List (Nat × Bool) :=
  m.foldl (fun a kv => orInsert a kv.1 kv.2) acc

/-- Modelled from the spec: `merge_segment_outputs` is inherited from the
unseen `FactChecker` base class; §3 specifies the logical-OR policy (an
answer triplet is supported if any segment's call judged it supported). -/
def merge_segment_outputs (output_list : List FactCheckerOutput) : FactCheckerOutput :=
  ⟨output_list.foldl (fun acc o => orMergeTwo acc o.fact_check_prediction_binary) []⟩

/-- One reference-comparison model call, recorded in the trace as the
`(answer_triplets, reference_triplets)` pair it was issued with. -/
abbrev FactCheckCall := List (List String) × List (List String)

/-- Source `LLMMultiShotFactChecker.model_forward`, parameterized by the
opaque model invoker: builds one prompt, performs exactly one model call,
and parses the raw text with the parser selected by `inquiry_mode`.  The
second component is the call trace (one entry). -/
def model_forward (inquiry_mode : Bool)
    (invoke : List (List String) → List (List String) → String)
    (answer_triplets : List (List String)) (reference_triplets : List (List String)) :
    FactCheckerOutput × List FactCheckCall :=
  (if inquiry_mode then
    ⟨parse_triplet_comparison_inquiry_output (invoke answer_triplets reference_triplets)⟩
  else
    ⟨parse_triplet_comparison_output (invoke answer_triplets reference_triplets)⟩,
  [(answer_triplets, reference_triplets)])

/-- Source `LLMMultiShotFactChecker.forward`: in split mode, loop over the
reference segments accumulating one `model_forward` result per segment,
then merge once; otherwise flatten the segments and perform a single
call.  The call trace of the embedded loop is returned alongside the
output. -/
def forward (split_reference_triplets inquiry_mode : Bool)
    (invoke : List (List String) → List (List String) → String)
    (answer_triplets : List (List String))
    (reference_triplets : List (List (List String))) :
    FactCheckerOutput × List FactCheckCall :=
  if split_reference_triplets then
    let folded := reference_triplets.foldl
      (fun acc segment =>
        (acc.1 ++ [(model_forward inquiry_mode invoke answer_triplets segment).1],
         acc.2 ++ (model_forward inquiry_mode invoke answer_triplets segment).2))
      (([], []) : List FactCheckerOutput × List FactCheckCall)
    (merge_segment_outputs folded.1, folded.2)
  else
    model_forward inquiry_mode invoke answer_triplets (flatten_triplets reference_triplets)

/-- JSON values, as decoded by `json.loads` (numbers are modelled as
integers; fractions, exponents and string escapes are not modelled). -/
inductive Json where
  | jnull
  | jbool (b : Bool)
  | jnum (n : Int)
  | jstr (s : String)
  | jarr (l : List Json)
  | jobj (members : List (String × Json))

/-- Fuel-based JSON parser.  `mode = 0` parses one value, `mode = 1`
parses array elements after `[` (returning `jarr`), `mode = 2` parses
object members after the opening brace (returning `jobj`). -/
def jparse : Nat → Nat → List Char → Option (Json × List Char)
  | 0, _, _ => none
  | n + 1, 0, cs =>
    match skipWs cs with
    | [] => none
    | c :: cs1 =>
      if c = '\x7b' then
        match jparse n 2 cs1 with
        | some (v, r) => some (v, r)
        | none => none
      else if c = '[' then
        match jparse n 1 cs1 with
        | some (v, r) => some (v, r)
        | none => none
      else if c = '"' then
        match parseStrBody '"' cs1 with
        | some (sd, r) => some (.jstr (String.mk sd), r)
        | none => none
      else if ("true".data).isPrefixOf (c :: cs1) then some (.jbool true, (c :: cs1).drop 4)
      else if ("false".data).isPrefixOf (c :: cs1) then some (.jbool false, (c :: cs1).drop 5)
      else if ("null".data).isPrefixOf (c :: cs1) then some (.jnull, (c :: cs1).drop 4)
      else if c = '-' then
        match cs1.takeWhile Char.isDigit with
        | [] => none
        | ds =>
          if 1 < ds.length ∧ ds.headD ' ' = '0' then none
          else some (.jnum (-(digitsToNat ds : Int)), cs1.dropWhile Char.isDigit)
      else if c.isDigit then
        let ds := (c :: cs1).takeWhile Char.isDigit
        if 1 < ds.length ∧ ds.headD ' ' = '0' then none
        else some (.jnum (digitsToNat ds : Int), (c :: cs1).dropWhile Char.isDigit)
      else none
  | n + 1, 1, cs =>
    match skipWs cs with
    | [] => none
    | c :: r0 =>
      if c = ']' then some (.jarr [], r0)
      else
        match jparse n 0 (c :: r0) with
        | none => none
        | some (v, r) =>
          match skipWs r with
          | ',' :: r1 =>
            (match jparse n 1 r1 with
             | some (Json.jarr vs, r2) => some (.jarr (v :: vs), r2)
             | _ => none)
          | ']' :: r1 => some (.jarr [v], r1)
          | _ => none
  | n + 1, 2, cs =>
    match skipWs cs with
    | [] => none
    | c :: r0 =>
      if c = '\x7d' then some (.jobj [], r0)
      else if c = '"' then
        match parseStrBody '"' r0 with
        | none => none
        | some (k, r1) =>
          match skipWs r1 with
          | ':' :: r2 =>
            (match jparse n 0 r2 with
             | none => none
             | some (v, r3) =>
               match skipWs r3 with
               | ',' :: r4 =>
                 (match jparse n 2 r4 with
                  | some (Json.jobj ms, r5) => some (.jobj ((String.mk k, v) :: ms), r5)
                  | _ => none)
               | c2 :: r4 => if c2 = '\x7d' then some (.jobj [(String.mk k, v)], r4) else none
               | [] => none)
          | _ => none
      else none
  | _ + 1, _ + 3, _ => none

/-- Model of `json.loads`. -/
def json_loads (s : String) : Option Json :=
  match jparse (s.data.length + 1) 0 s.data with
  | some (v, r) => if skipWs r = [] then some v else none
  | none => none

/-- Dictionary lookup on decoded JSON object members: the last occurrence
of a duplicated key wins, as in Python's `json.loads`. -/
def jsonLookup (members : List (String × Json)) (k : String) : Option Json :=
  members.foldl (fun acc p => if p.1 = k then some p.2 else acc) acc₀
where acc₀ : Option Json := none

/-- `data.get(key, "")` followed by `.strip()` in the source: a missing
key defaults to the empty string; a present non-string value makes
`.strip()` raise `AttributeError` (`none`). -/
def pyGetStr (members : List (String × Json)) (k : String) : Option String :=
  match jsonLookup members k with
  | none => some ""
  | some (Json.jstr s) => some (pyStrip s)
  | some _ => none

/-- Fuel-based key de-duplication preserving first positions. -/
def dedupKeysF : Nat → List String → List String
  | 0, l => l
  | _ + 1, [] => []
  | n + 1, k :: ks => k :: dedupKeysF n (ks.filter (fun k2 => k2 ≠ k))

/-- The source's `" ".join(hlcntn_details_list) if hlcntn_details_list
else ""` on the decoded `hallucinated_details` value, with Python truthiness
and join semantics: a falsy value (empty list or string, `None`, `False`,
`0`) yields the empty string; a truthy list joins its elements, which must
all be strings; a truthy string joins its characters; a truthy dict joins
its keys; other truthy values make `join` raise (`none`). -/
def joinDetails : Json → Option String
  | .jarr [] => some ""
  | .jarr l =>
    if l.all (fun d => match d with | .jstr _ => true | _ => false) then
      some (joinSep " " (l.map (fun d => match d with | .jstr s => s | _ => "")))
    else none
  | .jstr s => if s.data.isEmpty then some "" else
      some (joinSep " " (s.data.map (fun c => String.mk [c])))
  | .jnull => some ""
  | .jbool b => if b then none else some ""
  | .jnum n => if n = 0 then some "" else none
  | .jobj [] => some ""
  | .jobj ms => some (joinSep " " (dedupKeysF (ms.map (fun p => p.1)).length
      (ms.map (fun p => p.1))))

/-- The decoded `hallucinated_details` handling in the source:
`data.get("hallucinated_details", [])` (an absent key defaults to the
empty list, hence the empty string) followed by the conditional join. -/
def pyGetDetails (members : List (String × Json)) : Option String :=
  match jsonLookup members "hallucinated_details" with
  | none => some ""
  | some d => joinDetails d

/-- Source `LLMHallucinationDataGenerator.parse_hlcntn_data_generation_output`:
strip, decode JSON, extract the three fields; any failure anywhere
(malformed JSON, a non-object top level, a non-string answer field, an
unjoinable details value) is caught by the source's `except` clauses,
which overwrite all three results with empty strings. -/
def parse_hlcntn_data_generation_output (hlcntn_data_generation_output : String) :
    String × String × String :=
  match json_loads (pyStrip hlcntn_data_generation_output) with
  | some (Json.jobj members) =>
    match pyGetStr members "non_hallucinated_answer", pyGetStr members "hallucinated_answer",
        pyGetDetails members with
    | some n, some h, some p => (n, h, p)
    | _, _, _ => ("", "", "")
  | some _ => ("", "", "")
  | none => ("", "", "")

theorem exists_append_of_isPrefixOf :
    ∀ {l₁ l₂ : List Char}, l₁.isPrefixOf l₂ = true → ∃ t, l₂ = l₁ ++ t := by
  intro l₁
  induction l₁ with
  | nil => exact fun h => ⟨_, rfl⟩
  | cons a as ih =>
    intro l₂ h
    cases l₂ with
    | nil => simp [List.isPrefixOf] at h
    | cons b bs =>
      simp only [List.isPrefixOf, Bool.and_eq_true, beq_iff_eq] at h
      obtain ⟨t, ht⟩ := ih h.2
      exact ⟨t, by simp [h.1, ht]⟩

theorem dictUpdate_mem {d : List (Nat × Bool)} {k : Nat} {v : Bool} {kv : Nat × Bool}
    (h : kv ∈ dictUpdate d k v) : kv ∈ d ∨ kv = (k, v) := by
  unfold dictUpdate at h
  split at h
  · obtain ⟨p, hp, hpe⟩ := List.mem_map.mp h
    by_cases hk : (p.1 == k) = true
    · rw [if_pos hk] at hpe
      exact Or.inr hpe.symm
    · rw [if_neg hk] at hpe
      exact Or.inl (hpe ▸ hp)
  · rcases List.mem_append.mp h with h1 | h1
    · exact Or.inl h1
    · exact Or.inr (by simpa using h1)

theorem verdictFold_mem {tokens : List String} :
    ∀ {init : List (Nat × Bool)} {kv : Nat × Bool}, kv ∈ verdictFold init tokens →
      kv ∈ init ∨ ∃ tok ∈ tokens, evalVerdictEntry ((pyReplace tok "-" "").data) = some (some kv) := by
  induction tokens with
  | nil => intro init kv h; exact Or.inl h
  | cons tok toks ih =>
    intro init kv h
    rw [verdictFold, List.foldl_cons] at h
    cases he : evalVerdictEntry ((pyReplace tok "-" "").data) with
    | none =>
      simp only [he] at h
      rcases ih (show kv ∈ verdictFold init toks from h) with h1 | ⟨t, ht, hte⟩
      · exact Or.inl h1
      · exact Or.inr ⟨t, List.mem_cons_of_mem _ ht, hte⟩
    | some o =>
      cases o with
      | none =>
        simp only [he] at h
        rcases ih (show kv ∈ verdictFold init toks from h) with h1 | ⟨t, ht, hte⟩
        · exact Or.inl h1
        · exact Or.inr ⟨t, List.mem_cons_of_mem _ ht, hte⟩
      | some kv0 =>
        simp only [he] at h
        rcases ih (show kv ∈ verdictFold (dictUpdate init kv0.1 kv0.2) toks from h) with
          h1 | ⟨t, ht, hte⟩
        · rcases dictUpdate_mem h1 with h2 | h2
          · exact Or.inl h2
          · exact Or.inr ⟨tok, List.mem_cons_self _ _, by rw [h2]; simpa using he⟩
        · exact Or.inr ⟨t, List.mem_cons_of_mem _ ht, hte⟩

theorem verdictFold_skip {bad : String}
    (hbad : evalVerdictEntry ((pyReplace bad "-" "").data) = none) :
    ∀ (ts1 : List String) (init : List (Nat × Bool)) (ts2 : List String),
      verdictFold init (ts1 ++ bad :: ts2) = verdictFold init (ts1 ++ ts2) := by
  intro ts1
  induction ts1 with
  | nil =>
    intro init ts2
    simp only [List.nil_append, verdictFold, List.foldl_cons, hbad]
  | cons t ts ih =>
    intro init ts2
    simp only [List.cons_append, verdictFold, List.foldl_cons]
    exact ih _ _

theorem splitOnLF_of_not_contains {pat : List Char} :
    ∀ (cs : List Char) (n : Nat), containsSeq pat cs = false → splitOnLF pat n cs = [cs] := by
  intro cs
  induction cs with
  | nil =>
    intro n _
    cases n with
    | zero => rfl
    | succ m => rfl
  | cons c cs ih =>
    intro n h
    rw [containsSeq, Bool.or_eq_false_iff] at h
    cases n with
    | zero => rfl
    | succ m =>
      rw [splitOnLF, if_neg (by simp [h.1]), ih m h.2]
      rfl

theorem pySplit_of_not_contains {s sep : String} (h : containsSeq sep.data s.data = false) :
    pySplit s sep = [s] := by
  unfold pySplit
  rw [splitOnLF_of_not_contains s.data _ h]
  rfl

theorem forward_foldl_trace (inquiry : Bool)
    (invoke : List (List String) → List (List String) → String)
    (ans : List (List String)) :
    ∀ (refs : List (List (List String))) (outs : List FactCheckerOutput)
      (tr : List FactCheckCall),
      refs.foldl
          (fun acc segment =>
            (acc.1 ++ [(model_forward inquiry invoke ans segment).1],
             acc.2 ++ (model_forward inquiry invoke ans segment).2))
          (outs, tr)
        = (outs ++ refs.map (fun seg => (model_forward inquiry invoke ans seg).1),
           tr ++ refs.map (fun seg => (ans, seg))) := by
  intro refs
  induction refs with
  | nil => intro outs tr; simp
  | cons seg refs ih =>
    intro outs tr
    rw [List.foldl_cons, ih]
    simp [model_forward]

/-- C1: on a model-output string on which literal parsing fails (both
attempts), the source computes `default_triplet * 1`, i.e. the flat list
of three empty strings — three string elements, not the claimed
single-element list containing one default triplet. -/
theorem claim_C1_total_parse_failure :
    parse_triplet_generation_output "garbage" = [PyVal.str "", PyVal.str "", PyVal.str ""] ∧
      parse_triplet_generation_output "garbage" ≠ [PyVal.list default_triplet] := by
  constructor
  · rfl
  · intro h
    have h2 := congrArg List.length h
    rw [show (parse_triplet_generation_output "garbage").length = 3 from rfl] at h2
    simp at h2

/-- C2: `ModelConfig` as declared in data_models.py provides only the
fields `answer_generator`, `triplet_generator` and `llm`; the
`fact_checker` attribute that `forward` and `model_forward` read does not
exist on any well-typed value, so the access raises `AttributeError`
rather than being safe. -/
theorem claim_C2_fact_checker_config_missing (c : ModelConfig) :
    modelConfigAttr c "fact_checker" = none ∧
      (modelConfigAttr c "llm").isSome = true ∧
      (modelConfigAttr c "triplet_generator").isSome = true ∧
      (modelConfigAttr c "answer_generator").isSome = true :=
  ⟨rfl, rfl, rfl, rfl⟩

/-- C3 counterexample: the source removes every hyphen of a token, not
only leading ones: on `"1-0:True"` it produces the entry `10 ↦ True`,
whereas the parser described by the claim (strip leading hyphens, then
parse the token as a single `index:boolean` entry) skips the token and
returns the empty map. -/
theorem claim_C3_counterexample :
    parse_triplet_comparison_output "1-0:True" = [(10, true)] ∧
      parse_comparison_spec_leading_hyphens "1-0:True" = [] :=
  ⟨rfl, rfl⟩

/-- C3 (amended): the verdict parser replaces newlines with commas,
splits on commas, removes every hyphen from each token (not only leading
ones), parses each token as a single `index:boolean` entry and skips any
token that fails to parse without aborting the rest; both spec examples
hold. -/
theorem claim_C3_amended_all_hyphens :
    (∀ (init : List (Nat × Bool)) (ts1 ts2 : List String) (bad : String),
        evalVerdictEntry ((pyReplace bad "-" "").data) = none →
          verdictFold init (ts1 ++ bad :: ts2) = verdictFold init (ts1 ++ ts2)) ∧
      parse_triplet_comparison_output "0:True,\n-1:False" = [(0, true), (1, false)] ∧
      parse_triplet_comparison_output "not-a-pair, 2:True" = [(2, true)] :=
  ⟨fun init ts1 ts2 _ hbad => verdictFold_skip hbad ts1 init ts2, rfl, rfl⟩

/-- C3 witness: a concrete malformed token is skipped without affecting
the surrounding tokens. -/
theorem claim_C3_witness :
    verdictFold [] (["0:True"] ++ "junk" :: ["2:True"]) = verdictFold [] (["0:True"] ++ ["2:True"]) :=
  claim_C3_amended_all_hyphens.1 [] ["0:True"] ["2:True"] "junk" (by rfl)

/-- C4 counterexample: on a string containing the delimiter twice the
source parses only the text after the last occurrence
(`split(...)[-1]`), yielding `2 ↦ True`; the claim's parser (split on the
first occurrence, parse everything after it) yields the empty map. -/
theorem claim_C4_counterexample :
    parse_triplet_comparison_inquiry_output "0:True[FINAL ANSWER]1:True[FINAL ANSWER]2:True" =
        [(2, true)] ∧
      parse_inquiry_spec_first_occurrence "0:True[FINAL ANSWER]1:True[FINAL ANSWER]2:True" = [] :=
  ⟨rfl, rfl⟩

/-- C4 (amended): the inquiry parser logs the text before the first
occurrence of `[FINAL ANSWER]` and parses the text after the last
occurrence, stripping the noise substrings `triplet_idx_` and
`triplet_`; for an output containing the delimiter exactly once this
coincides with splitting on the first occurrence, and the spec's example
yields `0 ↦ True`. -/
theorem claim_C4_amended_last_occurrence :
    (∀ s : String, (pySplit s FINAL_ANSWER).length = 2 →
        parse_triplet_comparison_inquiry_output s = parse_inquiry_spec_first_occurrence s) ∧
      parse_triplet_comparison_inquiry_output "reasoning...[FINAL ANSWER]\n0:True" = [(0, true)] := by
  constructor
  · intro s h
    obtain ⟨a, b, hab⟩ := List.length_eq_two.mp h
    unfold parse_triplet_comparison_inquiry_output parse_inquiry_spec_first_occurrence
    rw [hab]
    rfl
  · rfl

/-- C4 witness: a single-occurrence output on which the source parser and
the first-occurrence parser agree. -/
theorem claim_C4_witness :
    parse_triplet_comparison_inquiry_output "a[FINAL ANSWER]0:True" =
      parse_inquiry_spec_first_occurrence "a[FINAL ANSWER]0:True" :=
  claim_C4_amended_last_occurrence.1 "a[FINAL ANSWER]0:True" (by rfl)

/-- C5: whenever the (preprocessed) generation output evaluates to a
list of candidate elements, the parser keeps every element of length 3
unchanged, replaces every element of any other length by the default
triplet at its own index, and preserves the element count. -/
theorem claim_C5_malformed_elements_nulled (s : String) (items : List PyVal)
    (h : literal_eval (preprocess_output s) = some (PyVal.list items)) :
    parse_triplet_generation_output s =
        items.map (fun t => if pyLen t = 3 then t else PyVal.list default_triplet) ∧
      (parse_triplet_generation_output s).length = items.length := by
  unfold parse_triplet_generation_output
  rw [h]
  exact ⟨rfl, by simp [pyItems]⟩

/-- C5 witness: a concrete output with one well-formed and one malformed
element. -/
theorem claim_C5_witness :
    parse_triplet_generation_output "[[\"a\",\"b\",\"c\"],[\"d\"]]" =
        [PyVal.list [PyVal.str "a", PyVal.str "b", PyVal.str "c"], PyVal.list default_triplet] ∧
      (parse_triplet_generation_output "[[\"a\",\"b\",\"c\"],[\"d\"]]").length = 2 := by
  have h := claim_C5_malformed_elements_nulled "[[\"a\",\"b\",\"c\"],[\"d\"]]"
    [PyVal.list [PyVal.str "a", PyVal.str "b", PyVal.str "c"], PyVal.list [PyVal.str "d"]]
    (by rfl)
  exact ⟨h.1.trans (by rfl), h.2.trans (by rfl)⟩

/-- C7: in split mode `forward` issues exactly one comparison call per
reference segment, in reference-list order, each with the same answer
triplets (the call trace is exactly `refs.map (fun seg => (ans, seg))`),
and applies the merge step exactly once, to the list of all per-segment
outputs. -/
theorem claim_C7_split_mode_calls (inquiry : Bool)
    (invoke : List (List String) → List (List String) → String)
    (ans : List (List String)) (refs : List (List (List String))) :
    forward true inquiry invoke ans refs =
      (merge_segment_outputs (refs.map fun seg => (model_forward inquiry invoke ans seg).1),
       refs.map fun seg => (ans, seg)) := by
  unfold forward
  rw [if_pos rfl, forward_foldl_trace inquiry invoke ans refs [] []]
  simp

/-- C8 counterexample: the verdict parser never sees the answer-triplet
list, so its keys are not bounded by it: `"5:True"` parses to the entry
`5 ↦ True` although `5` is not an index of the one-element answer list. -/
theorem claim_C8_counterexample :
    parse_triplet_comparison_output "5:True" = [(5, true)] ∧
      ¬(5 < List.length ([["a", "b", "c"]] : List (List String))) :=
  ⟨rfl, by decide⟩

/-- C8 (amended): every entry of the map returned by either verdict
parser comes from some token of the tokenization that evaluated to a
single `index:boolean` entry — keys are natural numbers and values
booleans — but keys are not guaranteed to lie in
`0..len(answer triplets)-1`. -/
theorem claim_C8_amended_keys_from_tokens :
    (∀ (s : String) (kv : Nat × Bool), kv ∈ parse_triplet_comparison_output s →
        ∃ tok ∈ comparison_tokens s,
          evalVerdictEntry ((pyReplace tok "-" "").data) = some (some kv)) ∧
      (∀ (s : String) (kv : Nat × Bool), kv ∈ parse_triplet_comparison_inquiry_output s →
        ∃ tok ∈ inquiry_verdict_tokens ((pySplit s FINAL_ANSWER).getLastD ""),
          evalVerdictEntry ((pyReplace tok "-" "").data) = some (some kv)) := by
  constructor
  · intro s kv h
    rcases verdictFold_mem (show kv ∈ verdictFold [] (comparison_tokens s) from h) with h1 | h1
    · exact absurd h1 (List.not_mem_nil kv)
    · exact h1
  · intro s kv h
    rcases verdictFold_mem
        (show kv ∈ verdictFold [] (inquiry_verdict_tokens ((pySplit s FINAL_ANSWER).getLastD ""))
          from h) with h1 | h1
    · exact absurd h1 (List.not_mem_nil kv)
    · exact h1

/-- C8 witness: the out-of-range entry of the counterexample does come
from a parsed token. -/
theorem claim_C8_witness :
    ∃ tok ∈ comparison_tokens "5:True",
      evalVerdictEntry ((pyReplace tok "-" "").data) = some (some (5, true)) :=
  claim_C8_amended_keys_from_tokens.1 "5:True" (5, true) (by decide)

/-- C9 counterexample: a well-formed JSON object missing required keys is
not mapped to three empty strings: each missing key defaults to the empty
string individually while present fields are still extracted. -/
theorem claim_C9_counterexample :
    parse_hlcntn_data_generation_output "\x7b\"hallucinated_answer\": \"B\"\x7d" = ("", "B", "") ∧
      ("", "B", "") ≠ (("", "", "") : String × String × String) :=
  ⟨rfl, by decide⟩

/-- C9 (amended): an input that is not decodable as JSON yields three
empty strings, and the parser never raises; for a decodable JSON object,
each missing required key degrades to the empty string for that field
only. -/
theorem claim_C9_amended_malformed_json (s : String)
    (h : json_loads (pyStrip s) = none) :
    parse_hlcntn_data_generation_output s = ("", "", "") := by
  unfold parse_hlcntn_data_generation_output
  rw [h]

/-- C9 witness: a concrete undecodable input. -/
theorem claim_C9_witness :
    parse_hlcntn_data_generation_output "not json" = ("", "", "") :=
  claim_C9_amended_malformed_json "not json" (by rfl)

/-- C10: when the input contains no occurrence of `[FINAL ANSWER]`,
`split` returns the whole string as its only part, so the inquiry parser
treats the entire input both as the logged reasoning part and as the
verdict listing, which is parsed in full. -/
theorem claim_C10_no_delimiter (s : String)
    (h : containsSeq FINAL_ANSWER.data s.data = false) :
    inquiry_reasoning_part s = s ∧
      parse_triplet_comparison_inquiry_output s = processInquiryPart s := by
  unfold inquiry_reasoning_part parse_triplet_comparison_inquiry_output
  rw [pySplit_of_not_contains h]
  exact ⟨rfl, rfl⟩

/-- C10 witness: a delimiter-free output is parsed in full. -/
theorem claim_C10_witness :
    inquiry_reasoning_part "0:True" = "0:True" ∧
      parse_triplet_comparison_inquiry_output "0:True" = processInquiryPart "0:True" :=
  claim_C10_no_delimiter "0:True" (by decide)

theorem skipWs_not_ws {c : Char} (h : isPyWs c = false) (cs : List Char) :
    skipWs (c :: cs) = c :: cs := by
  rw [skipWs, if_neg]
  simp [h]

theorem parseStrBody_rt :
    ∀ (sd rest : List Char), '"' ∉ sd →
      parseStrBody '"' (sd ++ '"' :: rest) = some (sd, rest) := by
  intro sd
  induction sd with
  | nil =>
    intro rest _
    rw [List.nil_append, parseStrBody, if_pos rfl]
  | cons c cs ih =>
    intro rest h
    have hc : ¬c = '"' := by
      intro he
      rw [he] at h
      exact h (List.mem_cons_self '"' cs)
    rw [List.cons_append, parseStrBody, if_neg hc,
      ih rest (fun hm => h (List.mem_cons_of_mem c hm))]

theorem parseF_true_close (n : Nat) (rest : List Char) :
    parseF (n + 1) true (']' :: rest) = some (.list [], rest) := by
  rw [parseF, skipWs_not_ws (by decide)]
  dsimp only
  rw [if_pos rfl]

theorem parseF_false_quote (n : Nat) (sd rest : List Char) (h : '"' ∉ sd) :
    parseF (n + 1) false ('"' :: (sd ++ '"' :: rest)) = some (.str (String.mk sd), rest) := by
  rw [parseF, skipWs_not_ws (by decide)]
  dsimp only
  rw [if_neg (by decide), if_pos (Or.inl rfl), parseStrBody_rt sd rest h]

theorem parseF_false_bracket (n : Nat) (cs : List Char) :
    parseF (n + 1) false ('[' :: cs) =
      match parseF n true cs with
      | some (v, r) => some (v, r)
      | none => none := by
  rw [parseF, skipWs_not_ws (by decide)]
  dsimp only
  rw [if_pos rfl]

theorem parseF_true_step {c : Char} (hws : isPyWs c = false) (hc : ¬c = ']') (n : Nat)
    (cs : List Char) :
    parseF (n + 1) true (c :: cs) =
      match parseF n false (c :: cs) with
      | none => none
      | some (v, r) =>
        match skipWs r with
        | [] => none
        | c2 :: r1 =>
          if c2 = ',' then
            match parseF n true r1 with
            | some (PyVal.list vs, r2) => some (.list (v :: vs), r2)
            | _ => none
          else if c2 = ']' then some (.list [v], r1)
          else none := by
  rw [parseF, skipWs_not_ws hws]
  dsimp only
  rw [if_neg hc]

theorem parseF_renderStrings :
    ∀ (ss : List String) (n : Nat) (rest : List Char),
      (∀ s ∈ ss, '"' ∉ s.data) → ss.length + 1 ≤ n →
      parseF n true (renderStrings ss ++ ']' :: rest) = some (.list (ss.map PyVal.str), rest) := by
  intro ss
  induction ss with
  | nil =>
    intro n rest _ hn
    obtain ⟨m, rfl⟩ : ∃ m, n = m + 1 := ⟨n - 1, by omega⟩
    rw [renderStrings, List.nil_append, parseF_true_close]
    rfl
  | cons s ss ih =>
    intro n rest h hn
    obtain ⟨m, rfl⟩ : ∃ m, n = m + 1 := ⟨n - 1, by omega⟩
    have hs : '"' ∉ s.data := h s (List.mem_cons_self s ss)
    have hss : ∀ x ∈ ss, '"' ∉ x.data := fun x hx => h x (List.mem_cons_of_mem s hx)
    have hm : ss.length + 1 ≤ m := by
      simp only [List.length_cons] at hn
      omega
    rw [renderStrings,
      show (renderStringL s ++ renderStringsRest ss) ++ ']' :: rest
          = '"' :: (s.data ++ '"' :: (renderStringsRest ss ++ ']' :: rest)) from by
        simp [renderStringL]]
    rw [parseF_true_step (by decide) (by decide) m]
    obtain ⟨m2, rfl⟩ : ∃ m2, m = m2 + 1 := ⟨m - 1, by omega⟩
    rw [parseF_false_quote m2 s.data _ hs]
    dsimp only
    cases ss with
    | nil =>
      rw [show renderStringsRest ([] : List String) ++ ']' :: rest = ']' :: rest from rfl,
        skipWs_not_ws (by decide)]
      dsimp only
      rw [if_neg (by decide), if_pos rfl]
      rfl
    | cons s2 ss2 =>
      rw [show renderStringsRest (s2 :: ss2) ++ ']' :: rest
            = ',' :: (renderStrings (s2 :: ss2) ++ ']' :: rest) from by
          simp [renderStringsRest, renderStrings]]
      rw [skipWs_not_ws (by decide)]
      dsimp only
      rw [if_pos rfl, ih (m2 + 1) rest hss (by simp only [List.length_cons] at hm ⊢; omega)]
      rfl

theorem parseF_renderTriplet (t : List String) (n : Nat) (rest : List Char)
    (h : ∀ s ∈ t, '"' ∉ s.data) (hn : t.length + 2 ≤ n) :
    parseF n false (renderTripletL t ++ rest) = some (.list (t.map PyVal.str), rest) := by
  obtain ⟨m, rfl⟩ : ∃ m, n = m + 1 := ⟨n - 1, by omega⟩
  rw [show renderTripletL t ++ rest = '[' :: (renderStrings t ++ ']' :: rest) from by
    simp [renderTripletL]]
  rw [parseF_false_bracket, parseF_renderStrings t m rest h (by omega)]

theorem parseF_renderSetBody :
    ∀ (ts : List (List String)) (n : Nat) (rest : List Char),
      (∀ t ∈ ts, t.length = 3 ∧ ∀ s ∈ t, '"' ∉ s.data) → ts.length + 5 ≤ n →
      parseF n true (renderSetBody ts ++ ']' :: rest) = some (.list (pyOfTripletSet ts), rest) := by
  intro ts
  induction ts with
  | nil =>
    intro n rest _ hn
    obtain ⟨m, rfl⟩ : ∃ m, n = m + 1 := ⟨n - 1, by omega⟩
    rw [renderSetBody, List.nil_append, parseF_true_close]
    rfl
  | cons t ts ih =>
    intro n rest h hn
    obtain ⟨m, rfl⟩ : ∃ m, n = m + 1 := ⟨n - 1, by omega⟩
    have ht := h t (List.mem_cons_self t ts)
    have hts : ∀ x ∈ ts, x.length = 3 ∧ ∀ s ∈ x, '"' ∉ s.data :=
      fun x hx => h x (List.mem_cons_of_mem t hx)
    rw [renderSetBody,
      show (renderTripletL t ++ renderSetBodyRest ts) ++ ']' :: rest
          = '[' :: (renderStrings t ++ ']' :: (renderSetBodyRest ts ++ ']' :: rest)) from by
        simp [renderTripletL]]
    rw [parseF_true_step (by decide) (by decide) m]
    rw [show ('[' : Char) :: (renderStrings t ++ ']' :: (renderSetBodyRest ts ++ ']' :: rest))
          = renderTripletL t ++ (renderSetBodyRest ts ++ ']' :: rest) from by
        simp [renderTripletL]]
    rw [parseF_renderTriplet t m _ ht.2
      (by rw [ht.1]; simp only [List.length_cons] at hn; omega)]
    dsimp only
    cases ts with
    | nil =>
      rw [show renderSetBodyRest ([] : List (List String)) ++ ']' :: rest = ']' :: rest from rfl,
        skipWs_not_ws (by decide)]
      dsimp only
      rw [if_neg (by decide), if_pos rfl]
      rfl
    | cons t2 ts2 =>
      rw [show renderSetBodyRest (t2 :: ts2) ++ ']' :: rest
            = ',' :: (renderSetBody (t2 :: ts2) ++ ']' :: rest) from by
          simp [renderSetBodyRest, renderSetBody]]
      rw [skipWs_not_ws (by decide)]
      dsimp only
      rw [if_pos rfl, ih m rest hts (by simp only [List.length_cons] at hn ⊢; omega)]
      rfl

theorem renderTripletL_length (t : List String) (h : t.length = 3) :
    10 ≤ (renderTripletL t).length := by
  obtain ⟨a, b, c, rfl⟩ := List.length_eq_three.mp h
  simp [renderTripletL, renderStrings, renderStringsRest, renderStringL]
  omega

theorem renderSetBody_cons_length :
    ∀ (ts : List (List String)) (t : List String), (∀ x ∈ t :: ts, x.length = 3) →
      (t :: ts).length + 3 ≤ (renderSetBody (t :: ts)).length := by
  intro ts
  induction ts with
  | nil =>
    intro t h
    have h1 := renderTripletL_length t (h t (List.mem_cons_self t []))
    simp only [renderSetBody, renderSetBodyRest, List.append_nil, List.length_cons,
      List.length_nil]
    omega
  | cons t2 ts2 ih =>
    intro t h
    have h1 := renderTripletL_length t (h t (List.mem_cons_self t (t2 :: ts2)))
    have h2 := ih t2 (fun x hx => h x (List.mem_cons_of_mem t hx))
    have hr : renderSetBodyRest (t2 :: ts2) = ',' :: renderSetBody (t2 :: ts2) := rfl
    rw [renderSetBody, hr]
    simp only [List.length_append, List.length_cons] at h2 ⊢
    omega

theorem literal_eval_render (ts : List (List String))
    (h : ∀ t ∈ ts, t.length = 3 ∧ ∀ s ∈ t, '"' ∉ s.data) :
    literal_eval (renderTripletSet ts) = some (.list (pyOfTripletSet ts)) := by
  cases ts with
  | nil => rfl
  | cons t ts' =>
    have hdata : (renderTripletSet (t :: ts')).data
        = '[' :: (renderSetBody (t :: ts') ++ ']' :: []) := by
      simp [renderTripletSet]
    have hlen := renderSetBody_cons_length ts' t (fun x hx => (h x hx).1)
    unfold literal_eval
    rw [hdata, List.length_cons, parseF_false_bracket,
      parseF_renderSetBody (t :: ts') _ [] h (by
        simp only [List.length_append, List.length_cons, List.length_nil] at hlen ⊢
        omega)]
    rfl

theorem st_cons_other {c : Char} (h1 : ¬c = ']') (h3 : ¬(c = '\x7b' ∨ c = '\x7d'))
    (h4 : ¬c = '.') (k : Nat) (cs : List Char) : st k (c :: cs) = st 0 cs := by
  rw [st, if_neg h1, if_neg h3, if_neg (by simp [h4])]

theorem st_cons_bracket {k : Nat} (hk : ¬2 ≤ k) (cs : List Char) :
    st k (']' :: cs) = st (k + 1) cs := by
  rw [st, if_pos rfl, if_neg hk]

theorem st_cons_bracket_fail {k : Nat} (hk : 2 ≤ k) (cs : List Char) :
    st k (']' :: cs) = none := by
  rw [st, if_pos rfl, if_pos hk]

theorem st_append :
    ∀ (xs : List Char) (k : Nat) (ys : List Char),
      st k (xs ++ ys) = match st k xs with
        | some k2 => st k2 ys
        | none => none := by
  intro xs
  induction xs with
  | nil => intro k ys; rfl
  | cons c cs ih =>
    intro k ys
    by_cases h1 : c = ']'
    · subst h1
      by_cases h2 : 2 ≤ k
      · rw [List.cons_append, st_cons_bracket_fail h2, st_cons_bracket_fail h2]
      · rw [List.cons_append, st_cons_bracket h2, st_cons_bracket h2, ih]
    · by_cases h3 : c = '\x7b' ∨ c = '\x7d'
      · rw [List.cons_append, st, if_neg h1, if_pos h3, st, if_neg h1, if_pos h3]
      · by_cases h4 : c = '.'
        · subst h4
          by_cases h2 : 2 ≤ k
          · rw [List.cons_append, st, if_neg h1, if_neg h3, if_pos (by simp [h2]), st,
              if_neg h1, if_neg h3, if_pos (by simp [h2])]
          · rw [List.cons_append, st, if_neg h1, if_neg h3, if_neg (by simp [h2]), st,
              if_neg h1, if_neg h3, if_neg (by simp [h2]), ih]
        · rw [List.cons_append, st_cons_other h1 h3 h4, st_cons_other h1 h3 h4, ih]

theorem st_renderStringL {s : String} (h : (st 0 s.data).isSome = true) (k : Nat) :
    st k (renderStringL s) = some 0 := by
  obtain ⟨j, hj⟩ := Option.isSome_iff_exists.mp h
  rw [renderStringL, show ('"' :: s.data ++ ['"'] : List Char) = '"' :: (s.data ++ ['"']) from
    rfl, st_cons_other (by decide) (by decide) (by decide), st_append, hj]
  dsimp only
  rw [st_cons_other (by decide) (by decide) (by decide)]
  rfl

theorem st_renderStrings3 {a b c : String} (ha : (st 0 a.data).isSome = true)
    (hb : (st 0 b.data).isSome = true) (hc : (st 0 c.data).isSome = true)
    (k : Nat) (rest : List Char) :
    st k (renderStrings [a, b, c] ++ rest) = st 0 rest := by
  rw [show renderStrings [a, b, c] ++ rest
        = renderStringL a ++ (',' :: (renderStringL b ++ (',' :: (renderStringL c ++ rest))))
      from by simp [renderStrings, renderStringsRest]]
  rw [st_append, st_renderStringL ha k]
  dsimp only
  rw [st_cons_other (by decide) (by decide) (by decide), st_append, st_renderStringL hb 0]
  dsimp only
  rw [st_cons_other (by decide) (by decide) (by decide), st_append, st_renderStringL hc 0]

theorem st_renderTripletL {t : List String} (h3 : t.length = 3)
    (hs : ∀ s ∈ t, (st 0 s.data).isSome = true) (k : Nat) (rest : List Char) :
    st k (renderTripletL t ++ rest) = st 1 rest := by
  obtain ⟨a, b, c, rfl⟩ := List.length_eq_three.mp h3
  have ha := hs a (by simp)
  have hb := hs b (by simp)
  have hc := hs c (by simp)
  rw [show renderTripletL [a, b, c] ++ rest = '[' :: (renderStrings [a, b, c] ++ (']' :: rest))
      from by simp [renderTripletL]]
  rw [st_cons_other (by decide) (by decide) (by decide), st_renderStrings3 ha hb hc,
    st_cons_bracket (by omega)]

theorem st_renderSetBody_cons :
    ∀ (ts : List (List String)) (t : List String) (k : Nat) (rest : List Char),
      (∀ x ∈ t :: ts, x.length = 3 ∧ ∀ s ∈ x, (st 0 s.data).isSome = true) →
      st k (renderSetBody (t :: ts) ++ rest) = st 1 rest := by
  intro ts
  induction ts with
  | nil =>
    intro t k rest h
    have ht := h t (by simp)
    rw [show renderSetBody [t] ++ rest = renderTripletL t ++ rest from by
      simp [renderSetBody, renderSetBodyRest]]
    exact st_renderTripletL ht.1 ht.2 k rest
  | cons t2 ts2 ih =>
    intro t k rest h
    have ht := h t (by simp)
    rw [show renderSetBody (t :: t2 :: ts2) ++ rest
          = renderTripletL t ++ (',' :: (renderSetBody (t2 :: ts2) ++ rest)) from by
        simp [renderSetBody, renderSetBodyRest]]
    rw [st_renderTripletL ht.1 ht.2 k, st_cons_other (by decide) (by decide) (by decide)]
    exact ih t2 0 rest (fun x hx => h x (List.mem_cons_of_mem t hx))

theorem st_renderTripletSet (ts : List (List String))
    (h : ∀ t ∈ ts, t.length = 3 ∧ ∀ s ∈ t, (st 0 s.data).isSome = true) :
    (st 0 (renderTripletSet ts).data).isSome = true := by
  cases ts with
  | nil => rfl
  | cons t ts' =>
    rw [show (renderTripletSet (t :: ts')).data
          = '[' :: (renderSetBody (t :: ts') ++ [']']) from by simp [renderTripletSet]]
    rw [st_cons_other (by decide) (by decide) (by decide), st_renderSetBody_cons ts' t 0 [']'] h]
    rfl

theorem st_pat_bl (k : Nat) (rest : List Char) : st k ('\x7b' :: rest) = none := by
  rw [st, if_neg (by decide), if_pos (Or.inl rfl)]

theorem st_pat_br (k : Nat) (rest : List Char) : st k ('\x7d' :: rest) = none := by
  rw [st, if_neg (by decide), if_pos (Or.inr rfl)]

theorem st_pat_bbb (k : Nat) (rest : List Char) : st k (']' :: ']' :: ']' :: rest) = none := by
  by_cases h2 : 2 ≤ k
  · rw [st_cons_bracket_fail h2]
  · rw [st_cons_bracket h2]
    by_cases h3 : 2 ≤ k + 1
    · rw [st_cons_bracket_fail h3]
    · rw [st_cons_bracket h3, st_cons_bracket_fail (by omega)]

theorem st_pat_bbdot (k : Nat) (rest : List Char) : st k (']' :: ']' :: '.' :: rest) = none := by
  by_cases h2 : 2 ≤ k
  · rw [st_cons_bracket_fail h2]
  · rw [st_cons_bracket h2]
    by_cases h3 : 2 ≤ k + 1
    · rw [st_cons_bracket_fail h3]
    · rw [st_cons_bracket h3, st, if_neg (by decide), if_neg (by decide),
        if_pos ⟨rfl, by omega⟩]

theorem replaceListF_id {pat repl : List Char}
    (hpat : ∀ (k : Nat) (rest : List Char), st k (pat ++ rest) = none) :
    ∀ (n : Nat) (cs : List Char) (k : Nat), (st k cs).isSome = true →
      replaceListF pat repl n cs = cs := by
  intro n
  induction n with
  | zero => intro cs k _; rfl
  | succ m ih =>
    intro cs k h
    cases cs with
    | nil => rfl
    | cons c cs' =>
      have hnp : ¬(!pat.isEmpty && pat.isPrefixOf (c :: cs')) = true := by
        intro hcond
        rw [Bool.and_eq_true] at hcond
        obtain ⟨tail, htail⟩ := exists_append_of_isPrefixOf hcond.2
        rw [htail, hpat k tail] at h
        simp at h
      rw [replaceListF, if_neg hnp]
      congr 1
      have h2 : ∃ k2, (st k2 cs').isSome = true := by
        by_cases h1 : c = ']'
        · subst h1
          by_cases hk2 : 2 ≤ k
          · rw [st_cons_bracket_fail hk2] at h
            simp at h
          · rw [st_cons_bracket hk2] at h
            exact ⟨k + 1, h⟩
        · by_cases h3 : c = '\x7b' ∨ c = '\x7d'
          · rw [st, if_neg h1, if_pos h3] at h
            simp at h
          · by_cases h4 : c = '.'
            · subst h4
              by_cases hk2 : 2 ≤ k
              · rw [st, if_neg h1, if_neg h3, if_pos ⟨rfl, hk2⟩] at h
                simp at h
              · rw [st, if_neg h1, if_neg h3, if_neg (by simp [hk2])] at h
                exact ⟨0, h⟩
            · rw [st_cons_other h1 h3 h4] at h
              exact ⟨0, h⟩
      obtain ⟨k2, hk2s⟩ := h2
      exact ih cs' k2 hk2s

theorem pyReplace_id (s pat repl : String)
    (hpat : ∀ (k : Nat) (rest : List Char), st k (pat.data ++ rest) = none)
    (hs : (st 0 s.data).isSome = true) : pyReplace s pat repl = s := by
  unfold pyReplace
  rw [replaceListF_id hpat s.data.length s.data 0 hs]

theorem stripChars_id (cs : List Char) (c d : Char) (hc : isPyWs c = false)
    (hd : isPyWs d = false) : stripChars (c :: cs ++ [d]) = c :: cs ++ [d] := by
  unfold stripChars
  rw [show (c :: cs ++ [d] : List Char) = c :: (cs ++ [d]) from rfl, List.dropWhile_cons,
    if_neg (by simp [hc])]
  rw [show (c :: (cs ++ [d])).reverse = d :: (cs.reverse ++ [c]) from by simp,
    List.dropWhile_cons, if_neg (by simp [hd])]
  simp

theorem pyStrip_render_id (ts : List (List String)) :
    pyStrip (renderTripletSet ts) = renderTripletSet ts := by
  unfold pyStrip
  rw [show (renderTripletSet ts).data = '[' :: renderSetBody ts ++ [']'] from rfl,
    stripChars_id _ _ _ (by decide) (by decide)]
  rfl

theorem preprocess_render_id (ts : List (List String))
    (h : ∀ t ∈ ts, t.length = 3 ∧ ∀ s ∈ t, (st 0 s.data).isSome = true) :
    preprocess_output (renderTripletSet ts) = renderTripletSet ts := by
  have hst := st_renderTripletSet ts h
  unfold preprocess_output
  rw [pyStrip_render_id,
    pyReplace_id _ "\x7b" "" (fun k rest => st_pat_bl k rest) hst,
    pyReplace_id _ "\x7d" "" (fun k rest => st_pat_br k rest) hst,
    pyReplace_id _ "]]]" "]]" (fun k rest => st_pat_bbb k rest) hst,
    pyReplace_id _ "]]." "]]" (fun k rest => st_pat_bbdot k rest) hst]

/-- C6 counterexample: round-tripping is not the identity for every
length-3 triplet set: a subject consisting of a brace character is erased
by `preprocess_output` before parsing, so the parsed triplet differs from
the rendered one. -/
theorem claim_C6_counterexample :
    parse_triplet_generation_output (renderTripletSet [["\x7b", "", ""]]) =
        [PyVal.list default_triplet] ∧
      [PyVal.list default_triplet] ≠ pyOfTripletSet [["\x7b", "", ""]] := by
  constructor
  · rfl
  · intro heq
    injection heq with e1 e5
    injection e1 with e2
    injection e2 with e3 e6
    injection e3 with e4
    exact absurd e4 (by decide)

/-- C6 (amended): for every TripletSet whose elements are length-3
triplets of strings that contain no double quote, no brace characters, no
three consecutive closing brackets and no two closing brackets followed
by a period (the patterns the normalizer rewrites), rendering the set as
its literal list-of-lists text and parsing it back through
`preprocess_output` and `parse_triplet_generation_output` yields exactly
the same elements, unchanged and in order. -/
theorem claim_C6_amended_roundtrip (ts : List (List String))
    (h : ∀ t ∈ ts, t.length = 3 ∧ ∀ s ∈ t, goodString s = true) :
    parse_triplet_generation_output (renderTripletSet ts) = pyOfTripletSet ts := by
  have hst : ∀ t ∈ ts, t.length = 3 ∧ ∀ s ∈ t, (st 0 s.data).isSome = true := fun t ht =>
    ⟨(h t ht).1, fun s hs => by
      have hg := (h t ht).2 s hs
      unfold goodString at hg
      rw [Bool.and_eq_true] at hg
      exact hg.2⟩
  have hq : ∀ t ∈ ts, t.length = 3 ∧ ∀ s ∈ t, '"' ∉ s.data := fun t ht =>
    ⟨(h t ht).1, fun s hs => by
      have hg := (h t ht).2 s hs
      unfold goodString at hg
      rw [Bool.and_eq_true] at hg
      simpa using hg.1⟩
  unfold parse_triplet_generation_output
  rw [preprocess_render_id ts hst, literal_eval_render ts hq]
  dsimp only
  rw [show pyItems (PyVal.list (pyOfTripletSet ts)) = pyOfTripletSet ts from rfl]
  unfold pyOfTripletSet
  rw [List.map_map]
  apply List.map_congr_left
  intro t ht
  have h3 := (hq t ht).1
  simp [Function.comp, pyLen, h3]

/-- C6 witness: a concrete well-behaved triplet set round-trips to
itself. -/
theorem claim_C6_witness :
    parse_triplet_generation_output (renderTripletSet [["a", "b", "c"]]) =
      pyOfTripletSet [["a", "b", "c"]] :=
  claim_C6_amended_roundtrip [["a", "b", "c"]] (by decide)
